import Mathlib

/-!
Verification of the password strength checker (`src/password_checker.py`).

Passwords are modelled as `List Char`.  Python's `float`/`math.log2`
arithmetic is modelled over `ℝ` (`Real.logb 2`), and Python's
`round(x, 2)` is modelled by `round2` below; `round` in Mathlib rounds
half away from zero upward while Python rounds half to even, but the two
agree off exact half-ties, and `length * log2 charset` never lands on a
half-tie for the charset sizes that occur (log2 is irrational except for
charset 32, where the product is an exact integer multiple of 5).
Python's `str.lower` is modelled on its ASCII behaviour.
-/

/- ### Characters and character classes (regexes `[a-z]`, `[A-Z]`, `[0-9]`, `[^a-zA-Z0-9]`) -/

def toChars (s : String) : List Char := s.data

def isLowerChar (c : Char) : Bool := 97 ≤ c.toNat && c.toNat ≤ 122

def isUpperChar (c : Char) : Bool := 65 ≤ c.toNat && c.toNat ≤ 90

def isDigitChar (c : Char) : Bool := 48 ≤ c.toNat && c.toNat ≤ 57

def isSpecialChar (c : Char) : Bool := !(isLowerChar c || isUpperChar c || isDigitChar c)

def hasLower (p : List Char) : Bool := p.any isLowerChar

def hasUpper (p : List Char) : Bool := p.any isUpperChar

def hasDigit (p : List Char) : Bool := p.any isDigitChar

def hasSpecial (p : List Char) : Bool := p.any isSpecialChar

def lowerChar (c : Char) : Char :=
  if isUpperChar c then Char.ofNat (c.toNat + 32) else c

def lowerStr (p : List Char) : List Char := p.map lowerChar

/- ### Configuration constants (module level in the source) -/

def MIN_LENGTH : Nat := 8

def RECOMMENDED_LENGTH : Nat := 12

noncomputable def ENTROPY_THRESHOLD_WEAK : ℝ := 50

noncomputable def ENTROPY_THRESHOLD_STRONG : ℝ := 80

def CHARSET_SIZE_LOWERCASE : Nat := 26

def CHARSET_SIZE_UPPERCASE : Nat := 26

def CHARSET_SIZE_DIGITS : Nat := 10

def CHARSET_SIZE_SPECIAL : Nat := 32

/- ### `check_patterns` -/

/-- Regex `(.)\1{2,}`: some character occurs three or more times in a row.
Python's `.` does not match a newline (no DOTALL flag is set), so the
captured group can never be `'\n'` and a run of newlines is never flagged. -/
def hasTripleRepeat : List Char → Bool
  | a :: b :: c :: rest =>
      (!(a == '\n') && a == b && b == c) || hasTripleRepeat (b :: c :: rest)
  | _ => false

def startsWith : List Char → List Char → Bool
  | [], _ => true
  | _ :: _, [] => false
  | a :: as, b :: bs => a == b && startsWith as bs

/-- Python's `needle in hay` substring test. -/
def hasSub (needle : List Char) : List Char → Bool
  | [] => needle.isEmpty
  | c :: rest => startsWith needle (c :: rest) || hasSub needle rest

def weakSubstrings : List (List Char) :=
  [toChars "abc", toChars "123", toChars "qwe", toChars "asdf"]

def check_patterns (password : List Char) : Bool :=
  hasTripleRepeat password ||
    weakSubstrings.any (fun sub => hasSub sub (lowerStr password))

/- ### `calculate_entropy` -/

def charsetSize (password : List Char) : Nat :=
  (if hasLower password then CHARSET_SIZE_LOWERCASE else 0) +
  (if hasUpper password then CHARSET_SIZE_UPPERCASE else 0) +
  (if hasDigit password then CHARSET_SIZE_DIGITS else 0) +
  (if hasSpecial password then CHARSET_SIZE_SPECIAL else 0)

/-- Python's `round(x, 2)`. -/
noncomputable def round2 (x : ℝ) : ℝ := (round (100 * x) : ℤ) / 100

noncomputable def calculate_entropy (password : List Char) : ℝ :=
  if charsetSize password = 0 then 0
  else round2 ((password.length : ℝ) * Real.logb 2 (charsetSize password))

/- ### The result record -/

inductive Strength where
  | Invalid
  | Weak
  | Moderate
  | Strong
deriving DecidableEq

/-- One feedback line: either a fixed message (its exact source text) or the
f-string line embedding the numeric entropy (`"Password entropy: {entropy} bits."`). -/
inductive Feedback where
  | msg (text : String)
  | entropyReport (bits : ℝ)

structure AnalysisResult where
  strength : Strength
  score : Nat
  entropy : ℝ
  feedback : List Feedback

/- ### `analyze`: the length check -/

def lengthScore (password : List Char) : Nat :=
  if password.length < MIN_LENGTH then 0
  else if RECOMMENDED_LENGTH ≤ password.length then 3
  else 1

def lengthFeedback (password : List Char) : Feedback :=
  if password.length < MIN_LENGTH then
    .msg "Password too short. Use at least 8 characters."
  else if RECOMMENDED_LENGTH ≤ password.length then
    .msg "Excellent! Password length is strong (12+ characters)."
  else
    .msg "Good length, but consider 12+ characters."

/- ### `analyze`: the character type checks (the `checks` table and its loop) -/

def checks : List ((List Char → Bool) × String × Nat) :=
  [(hasLower, "lowercase letters", 1),
   (hasUpper, "uppercase letters", 1),
   (hasDigit, "numbers", 1),
   (hasSpecial, "special characters", 2)]

def classFeedback (password : List Char) : List Feedback :=
  checks.map fun chk =>
    if chk.1 password then .msg ("Contains " ++ chk.2.1 ++ ": Good.")
    else .msg ("Add " ++ chk.2.1 ++ " for better strength.")

def classScoreVal (password : List Char) : Nat :=
  (checks.map fun chk => if chk.1 password then chk.2.2 else 0).sum

/- ### `analyze`: common password and pattern overrides -/

def scoreAfterOverrides (commonPasswords : List (List Char)) (password : List Char) : Nat :=
  if lowerStr password ∈ commonPasswords then 0
  else if check_patterns password then
    min (lengthScore password + classScoreVal password) 2
  else lengthScore password + classScoreVal password

def overrideFeedback (commonPasswords : List (List Char)) (password : List Char) :
    List Feedback :=
  if lowerStr password ∈ commonPasswords then
    [ .msg "WARNING: Common password detected! Easily guessable."]
  else if check_patterns password then
    [ .msg "WARNING: Predictable pattern detected (e.g., sequences)."]
  else []

/- ### `analyze`: entropy report and bonus -/

noncomputable def finalScore (commonPasswords : List (List Char)) (password : List Char) : Nat :=
  if calculate_entropy password < ENTROPY_THRESHOLD_WEAK then
    scoreAfterOverrides commonPasswords password
  else if ENTROPY_THRESHOLD_STRONG ≤ calculate_entropy password then
    scoreAfterOverrides commonPasswords password + 2
  else scoreAfterOverrides commonPasswords password

noncomputable def entropyFeedback (password : List Char) : List Feedback :=
  [ .entropyReport (calculate_entropy password)] ++
  (if calculate_entropy password < ENTROPY_THRESHOLD_WEAK then
    [ .msg "Low entropy; use a longer or more complex password."]
  else if ENTROPY_THRESHOLD_STRONG ≤ calculate_entropy password then
    [ .msg "High entropy: Excellent brute-force resistance!"]
  else [])

/- ### `analyze`: strength rating and the full function -/

def strengthOf (score : Nat) : Strength :=
  if 10 ≤ score then .Strong else if 6 ≤ score then .Moderate else .Weak

noncomputable def analyze (commonPasswords : List (List Char)) (password : List Char) :
    AnalysisResult :=
  if password = [] then
    { strength := .Invalid, score := 0, entropy := 0,
      feedback := [ .msg "Password cannot be empty."] }
  else
    { strength := strengthOf (finalScore commonPasswords password),
      score := finalScore commonPasswords password,
      entropy := calculate_entropy password,
      feedback := [lengthFeedback password] ++ classFeedback password ++
        overrideFeedback commonPasswords password ++ entropyFeedback password }

/- ### `_load_common_passwords` -/

def isSpaceChar (c : Char) : Bool :=
  c == ' ' || c == '\t' || c == '\n' || c == '\r' || c.toNat == 11 || c.toNat == 12

/-- Python's `str.strip()` (ASCII whitespace). -/
def strip (l : List Char) : List Char :=
  ((l.dropWhile isSpaceChar).reverse.dropWhile isSpaceChar).reverse

/-- The state of the common-passwords file: missing, present but raising on
read, or present with the given lines. -/
inductive LoadSource where
  | absent
  | unreadable
  | readable (lines : List (List Char))

inductive LogLevel where
  | warning
  | error
deriving DecidableEq

structure LoadResult where
  passwords : List (List Char)
  logged : Option LogLevel
deriving DecidableEq

def defaultCommonPasswords : List (List Char) :=
  [toChars "password", toChars "123456", toChars "qwerty", toChars "admin123",
   toChars "letmein"]

def loadCommonPasswords : LoadSource → LoadResult
  | .absent => { passwords := defaultCommonPasswords, logged := some .warning }
  | .unreadable => { passwords := [], logged := some .error }
  | .readable lines =>
      { passwords :=
          ((lines.filter fun l => !(strip l).isEmpty).map fun l => lowerStr (strip l)).dedup,
        logged := none }

example : check_patterns (toChars "aaaaaaaa") = true := by decide

example : check_patterns (toChars "Ax9!Bz8@Cw7#Dv6$Eu5%") = false := by decide

example : charsetSize (toChars "Ax9!Bz8@Cw7#Dv6$Eu5%") = 94 := by decide

example : charsetSize (toChars "abcdefgh") = 26 := by decide

example : classScoreVal (toChars "Ax9!Bz8@Cw7#Dv6$Eu5%") = 5 := by decide

example : lengthScore (toChars "Ax9!Bz8@Cw7#Dv6$Eu5%") = 3 := by decide

example : lowerStr (toChars "Ax9!Bz8@Cw7#Dv6$Eu5%") = toChars "ax9!bz8@cw7#dv6$eu5%" := by decide

example : check_patterns (toChars "Abc9!Bz8@Cw7#Dv6$Eu5") = true := by decide

example : check_patterns (toChars "password") = false := by decide

/- ### Helper lemmas about `round2` -/

lemma le_round2 (n : ℤ) (x : ℝ) (h : (n : ℝ) - 1 / 200 ≤ x) : (n : ℝ) ≤ round2 x := by
  have h1 : (n * 100 : ℤ) ≤ round (100 * x) := by
    rw [round_eq, Int.le_floor]
    push_cast
    linarith
  have h2 : ((n * 100 : ℤ) : ℝ) ≤ ((round (100 * x) : ℤ) : ℝ) := by exact_mod_cast h1
  unfold round2
  rw [le_div_iff₀ (by norm_num : (0:ℝ) < 100)]
  push_cast at h2 ⊢
  linarith

lemma round2_lt (n : ℤ) (x : ℝ) (h : x < (n : ℝ) - 1 / 200) : round2 x < (n : ℝ) := by
  have h1 : round (100 * x) < (n * 100 : ℤ) := by
    rw [round_eq, Int.floor_lt]
    push_cast
    linarith
  have h2 : ((round (100 * x) : ℤ) : ℝ) < ((n * 100 : ℤ) : ℝ) := by exact_mod_cast h1
  unfold round2
  rw [div_lt_iff₀ (by norm_num : (0:ℝ) < 100)]
  push_cast at h2 ⊢
  linarith

lemma round2_eq (n : ℤ) (x : ℝ) (h1 : (n : ℝ) / 100 - 1 / 200 ≤ x)
    (h2 : x < (n : ℝ) / 100 + 1 / 200) : round2 x = (n : ℝ) / 100 := by
  have : round (100 * x) = n := by
    rw [round_eq, Int.floor_eq_iff]
    constructor
    · linarith
    · linarith
  unfold round2
  rw [this]

lemma round2_nonneg (x : ℝ) (h : 0 ≤ x) : 0 ≤ round2 x := by
  have h0 := le_round2 0 x (by push_cast; linarith)
  push_cast at h0
  linarith

/- ### Helper lemmas about `Real.logb` at the charset sizes that occur -/

lemma logb2_94_lb : (13 : ℝ) ≤ 2 * Real.logb 2 94 := by
  have hpow : ((2:ℝ) ^ (13:ℕ)) ≤ (94:ℝ) ^ (2:ℕ) := by
    exact_mod_cast (by norm_num : (2:ℕ) ^ 13 ≤ 94 ^ 2)
  have h2 : (13:ℝ) ≤ Real.logb 2 ((94:ℝ) ^ (2:ℕ)) := by
    rw [Real.le_logb_iff_rpow_le (by norm_num) (by positivity)]
    rw [show (13:ℝ) = ((13:ℕ):ℝ) by norm_num, Real.rpow_natCast]
    exact hpow
  rw [Real.logb_pow] at h2
  exact_mod_cast h2

lemma logb2_26_lb : (7519 : ℝ) ≤ 1600 * Real.logb 2 26 := by
  have hpow : ((2:ℝ) ^ (7519:ℕ)) ≤ (26:ℝ) ^ (1600:ℕ) := by
    exact_mod_cast (by norm_num : (2:ℕ) ^ 7519 ≤ 26 ^ 1600)
  have h2 : (7519:ℝ) ≤ Real.logb 2 ((26:ℝ) ^ (1600:ℕ)) := by
    rw [Real.le_logb_iff_rpow_le (by norm_num) (by positivity)]
    rw [show (7519:ℝ) = ((7519:ℕ):ℝ) by norm_num, Real.rpow_natCast]
    exact hpow
  rw [Real.logb_pow] at h2
  exact_mod_cast h2

lemma logb2_26_ub : 1600 * Real.logb 2 26 < (7521 : ℝ) := by
  have hpow : (26:ℝ) ^ (1600:ℕ) < (2:ℝ) ^ (7521:ℕ) := by
    exact_mod_cast (by norm_num : (26:ℕ) ^ 1600 < 2 ^ 7521)
  have h2 : Real.logb 2 ((26:ℝ) ^ (1600:ℕ)) < (7521:ℝ) := by
    rw [Real.logb_lt_iff_lt_rpow (by norm_num) (by positivity)]
    rw [show (7521:ℝ) = ((7521:ℕ):ℝ) by norm_num, Real.rpow_natCast]
    exact hpow
  rw [Real.logb_pow] at h2
  exact_mod_cast h2

/- ### Score bounds -/

lemma lengthScore_le (p : List Char) : lengthScore p ≤ 3 := by
  unfold lengthScore
  split_ifs <;> norm_num

lemma classScoreVal_le (p : List Char) : classScoreVal p ≤ 5 := by
  unfold classScoreVal checks
  simp only [List.map_cons, List.map_nil, List.sum_cons, List.sum_nil]
  split_ifs <;> norm_num

lemma scoreAfterOverrides_le (c : List (List Char)) (p : List Char) :
    scoreAfterOverrides c p ≤ 8 := by
  unfold scoreAfterOverrides
  have h1 := lengthScore_le p
  have h2 := classScoreVal_le p
  split_ifs
  · omega
  · exact le_trans (min_le_right _ _) (by norm_num)
  · omega

lemma finalScore_le (c : List (List Char)) (p : List Char) : finalScore c p ≤ 10 := by
  unfold finalScore
  have h := scoreAfterOverrides_le c p
  split_ifs <;> omega

/- ### Projections of `analyze` -/

lemma analyze_empty (c : List (List Char)) :
    analyze c [] =
      { strength := .Invalid, score := 0, entropy := 0,
        feedback := [ .msg "Password cannot be empty."] } := rfl

lemma analyze_score (c : List (List Char)) (p : List Char) (h : p ≠ []) :
    (analyze c p).score = finalScore c p := by
  unfold analyze
  rw [if_neg h]

lemma analyze_strength (c : List (List Char)) (p : List Char) (h : p ≠ []) :
    (analyze c p).strength = strengthOf (finalScore c p) := by
  unfold analyze
  rw [if_neg h]

lemma analyze_entropy (c : List (List Char)) (p : List Char) (h : p ≠ []) :
    (analyze c p).entropy = calculate_entropy p := by
  unfold analyze
  rw [if_neg h]

/- ### Concrete entropy evaluation for four-class passwords of length ≥ 13 -/

lemma entropy_94_ge (p : List Char) (h1 : charsetSize p = 94) (h2 : 13 ≤ p.length) :
    ENTROPY_THRESHOLD_STRONG ≤ calculate_entropy p ∧
      ¬ calculate_entropy p < ENTROPY_THRESHOLD_WEAK := by
  have hlen : (13 : ℝ) ≤ (p.length : ℝ) := by exact_mod_cast h2
  have hL : (6.5 : ℝ) ≤ Real.logb 2 94 := by linarith [logb2_94_lb]
  have hmul : (13 : ℝ) * Real.logb 2 94 ≤ (p.length : ℝ) * Real.logb 2 94 :=
    mul_le_mul_of_nonneg_right hlen (by linarith)
  have hval : (79.995 : ℝ) ≤ (p.length : ℝ) * Real.logb 2 (charsetSize p) := by
    rw [h1]
    push_cast
    linarith
  have h80 : (80 : ℝ) ≤ round2 ((p.length : ℝ) * Real.logb 2 (charsetSize p)) := by
    have h := le_round2 80 ((p.length : ℝ) * Real.logb 2 (charsetSize p))
      (by push_cast; linarith)
    push_cast at h
    linarith
  unfold calculate_entropy
  rw [if_neg (by rw [h1]; norm_num)]
  unfold ENTROPY_THRESHOLD_STRONG ENTROPY_THRESHOLD_WEAK
  exact ⟨h80, by linarith⟩

lemma analyze_score_le_ten (c : List (List Char)) (p : List Char) :
    (analyze c p).score ≤ 10 := by
  by_cases h : p = []
  · subst h
    rw [analyze_empty]
    exact Nat.zero_le 10
  · rw [analyze_score c p h]
    exact finalScore_le c p

/-- Claim C5: for the empty password, `analyze` returns exactly strength
`Invalid`, score `0`, entropy `0.0` and the single feedback line
`"Password cannot be empty."`; the short-circuit runs no further checks. -/
theorem empty_password_result (c : List (List Char)) :
    analyze c [] =
      { strength := .Invalid, score := 0, entropy := 0,
        feedback := [ .msg "Password cannot be empty."] } :=
  analyze_empty c

/-- Claim C9: `analyze` is deterministic — two calls with the same password
and the same common-credential set produce identical `AnalysisResult`
values, including the same feedback in the same order. -/
theorem analyze_deterministic (c₁ c₂ : List (List Char)) (p₁ p₂ : List Char)
    (hc : c₁ = c₂) (hp : p₁ = p₂) : analyze c₁ p₁ = analyze c₂ p₂ := by
  rw [hc, hp]

theorem analyze_deterministic_witness :
    analyze defaultCommonPasswords (toChars "password") =
      analyze defaultCommonPasswords (toChars "password") :=
  analyze_deterministic defaultCommonPasswords defaultCommonPasswords
    (toChars "password") (toChars "password") rfl rfl

/-- Claim C10: `analyze` is total — for every common set and every string
(control characters, non-ASCII text and arbitrary length included) it
returns an `AnalysisResult`; the model has no failing path. -/
theorem analyze_total (c : List (List Char)) (p : List Char) :
    ∃ r : AnalysisResult, analyze c p = r :=
  ⟨analyze c p, rfl⟩

/-- Claim C6 counterexample: on the empty password the final score is `0 < 6`
yet the strength label is `Invalid`, not `Weak`, so the stated boundary rule
does not hold for every input. -/
theorem strength_thresholds_cex :
    (analyze [] []).score < 6 ∧ (analyze [] []).strength ≠ Strength.Weak := by
  rw [analyze_empty]
  decide

/-- Claim C6 (amended): for every NON-EMPTY input the strength label is
determined solely by the final score with inclusive boundaries —
`Strong` iff score ≥ 10, `Moderate` iff 6 ≤ score < 10, `Weak` iff
score < 6 (the empty password is instead labelled `Invalid`). -/
theorem strength_thresholds (c : List (List Char)) (p : List Char) (h : p ≠ []) :
    ((analyze c p).strength = Strength.Strong ↔ 10 ≤ (analyze c p).score) ∧
    ((analyze c p).strength = Strength.Moderate ↔
      6 ≤ (analyze c p).score ∧ (analyze c p).score < 10) ∧
    ((analyze c p).strength = Strength.Weak ↔ (analyze c p).score < 6) := by
  rw [analyze_strength c p h, analyze_score c p h]
  unfold strengthOf
  split_ifs with h1 h2 <;> refine ⟨?_, ?_, ?_⟩ <;> simp <;> omega

theorem strength_thresholds_witness :
    ((analyze [] (toChars "password")).strength = Strength.Strong ↔
      10 ≤ (analyze [] (toChars "password")).score) ∧
    ((analyze [] (toChars "password")).strength = Strength.Moderate ↔
      6 ≤ (analyze [] (toChars "password")).score ∧
        (analyze [] (toChars "password")).score < 10) ∧
    ((analyze [] (toChars "password")).strength = Strength.Weak ↔
      (analyze [] (toChars "password")).score < 6) :=
  strength_thresholds [] (toChars "password") (by decide)

/-- Claim C8: every password flagged by the common-credential check or by the
predictable-pattern check is labelled `Weak`: the reset (resp. the cap at 2)
leaves at most 2 + the possible entropy bonus 2, below the `Moderate`
threshold of 6. -/
theorem flagged_password_weak (c : List (List Char)) (p : List Char) (h : p ≠ [])
    (hflag : lowerStr p ∈ c ∨ check_patterns p = true) :
    (analyze c p).strength = Strength.Weak := by
  have hso : scoreAfterOverrides c p ≤ 2 := by
    unfold scoreAfterOverrides
    split_ifs with h1 h2
    · omega
    · exact min_le_right _ _
    · rcases hflag with hf | hf
      · exact absurd hf h1
      · exact absurd hf h2
  have hfs : finalScore c p < 6 := by
    unfold finalScore
    split_ifs <;> omega
  rw [analyze_strength c p h]
  unfold strengthOf
  split_ifs with g1 g2
  · exact absurd g1 (by omega)
  · exact absurd g2 (by omega)
  · rfl

theorem flagged_password_weak_witness :
    (analyze [toChars "password"] (toChars "password")).strength = Strength.Weak :=
  flagged_password_weak [toChars "password"] (toChars "password") (by decide)
    (Or.inl (by decide))

/-- Claim C1 counterexample: a 20-character four-class password placed
(lower-cased) in the common set is reset to 0 by the common-credential
check, but the later entropy bonus still fires, so `analyze` returns
score 2, not 0. -/
theorem common_password_score_cex :
    lowerStr (toChars "Ax9!Bz8@Cw7#Dv6$Eu5%") ∈ [toChars "ax9!bz8@cw7#dv6$eu5%"] ∧
    (analyze [toChars "ax9!bz8@cw7#dv6$eu5%"] (toChars "Ax9!Bz8@Cw7#Dv6$Eu5%")).score = 2 := by
  constructor
  · decide
  · rw [analyze_score _ _ (by decide)]
    unfold finalScore
    have he := entropy_94_ge (toChars "Ax9!Bz8@Cw7#Dv6$Eu5%") (by decide) (by decide)
    rw [if_neg he.2, if_pos he.1]
    have hso : scoreAfterOverrides [toChars "ax9!bz8@cw7#dv6$eu5%"]
        (toChars "Ax9!Bz8@Cw7#Dv6$Eu5%") = 0 := by decide
    rw [hso]

/-- Claim C1 (amended): for every non-empty password whose lower-casing is in
the common set, the common-credential check resets the score to 0 and the
length and character-class bonuses are discarded, but the later entropy bonus
can still apply: the final score is 2 when the rounded entropy is ≥ 80 and 0
otherwise (hence always ≤ 2, but not always 0). -/
theorem common_password_score (c : List (List Char)) (p : List Char) (h : p ≠ [])
    (hc : lowerStr p ∈ c) :
    (analyze c p).score =
      if ENTROPY_THRESHOLD_STRONG ≤ calculate_entropy p then 2 else 0 := by
  rw [analyze_score c p h]
  unfold finalScore
  have hso : scoreAfterOverrides c p = 0 := by
    unfold scoreAfterOverrides
    rw [if_pos hc]
  rw [hso]
  unfold ENTROPY_THRESHOLD_WEAK ENTROPY_THRESHOLD_STRONG
  split_ifs <;> first | rfl | (exfalso; linarith)

theorem common_password_score_witness :
    (analyze defaultCommonPasswords (toChars "password")).score =
      if ENTROPY_THRESHOLD_STRONG ≤ calculate_entropy (toChars "password") then 2
      else 0 :=
  common_password_score defaultCommonPasswords (toChars "password") (by decide)
    (by decide)

/-- Claim C2 counterexample, refuting the claim on two points.  First, a
20-character four-class password containing the weak substring "abc" and not
in the common set is capped at 2 by the pattern check, but the later entropy
bonus raises the final score to 4 > 2.  Second, the score is not even capped
for every 3+ run of one repeated character: the regex `(.)\1{2,}` never
matches a run of newlines, so `"Ab1\n\n\nCdEfGh2"` is not flagged at all and
scores 10. -/
theorem pattern_score_cap_cex :
    (check_patterns (toChars "Abc9!Bz8@Cw7#Dv6$Eu5") = true ∧
      lowerStr (toChars "Abc9!Bz8@Cw7#Dv6$Eu5") ∉ ([] : List (List Char)) ∧
      (analyze [] (toChars "Abc9!Bz8@Cw7#Dv6$Eu5")).score = 4) ∧
    (check_patterns (toChars "Ab1\n\n\nCdEfGh2") = false ∧
      lowerStr (toChars "Ab1\n\n\nCdEfGh2") ∉ ([] : List (List Char)) ∧
      (analyze [] (toChars "Ab1\n\n\nCdEfGh2")).score = 10) := by
  constructor
  · refine ⟨by decide, by decide, ?_⟩
    rw [analyze_score _ _ (by decide)]
    unfold finalScore
    have he := entropy_94_ge (toChars "Abc9!Bz8@Cw7#Dv6$Eu5") (by decide) (by decide)
    rw [if_neg he.2, if_pos he.1]
    have hso : scoreAfterOverrides [] (toChars "Abc9!Bz8@Cw7#Dv6$Eu5") = 2 := by decide
    rw [hso]
  · refine ⟨by decide, by decide, ?_⟩
    rw [analyze_score _ _ (by decide)]
    unfold finalScore
    have he := entropy_94_ge (toChars "Ab1\n\n\nCdEfGh2") (by decide) (by decide)
    rw [if_neg he.2, if_pos he.1]
    have hso : scoreAfterOverrides [] (toChars "Ab1\n\n\nCdEfGh2") = 8 := by decide
    rw [hso]

/-- Claim C2 (amended): for every non-empty password not in the common set
that the predictable-pattern check flags — a 3+ consecutive run of one
repeated NON-NEWLINE character (the regex `.` never matches `'\n'`), or one
of the weak substrings "abc", "123", "qwe", "asdf" case-insensitively — the
pattern check caps the score at 2 before the entropy step, so the final
score is at most 4 (the cap of 2 plus the possible entropy bonus of 2), not
at most 2; a password whose only 3+ run is of newlines is not flagged and is
not capped at all. -/
theorem pattern_score_cap (c : List (List Char)) (p : List Char) (h : p ≠ [])
    (hc : lowerStr p ∉ c) (hp : check_patterns p = true) :
    (analyze c p).score ≤ 4 := by
  rw [analyze_score c p h]
  have hso : scoreAfterOverrides c p ≤ 2 := by
    unfold scoreAfterOverrides
    rw [if_neg hc, if_pos hp]
    exact min_le_right _ _
  unfold finalScore
  split_ifs <;> omega

theorem pattern_score_cap_witness :
    (analyze [] (toChars "aaaaaaaa")).score ≤ 4 :=
  pattern_score_cap [] (toChars "aaaaaaaa") (by decide) (by decide) (by decide)

/-- Claim C4 counterexample: no pair of common set and password makes
`analyze` return score 12 — the attainable bonuses sum to
length 3 + classes (1+1+1+2) + entropy 2 = 10, so 12 is never reached. -/
theorem max_score_cex :
    ¬ ∃ (c : List (List Char)) (p : List Char), (analyze c p).score = 12 := by
  rintro ⟨c, p, hp⟩
  have h := analyze_score_le_ten c p
  omega

/-- Claim C4 (amended): the maximum score `analyze` can return over all
inputs is 10, composed of length (3), the four class bonuses (1+1+1+2) and
the entropy bonus (2) — the components the claim lists sum to 10, not 12 —
and 10 is attained. -/
theorem max_score :
    (∀ (c : List (List Char)) (p : List Char), (analyze c p).score ≤ 10) ∧
    (∃ (c : List (List Char)) (p : List Char), (analyze c p).score = 10) := by
  constructor
  · exact analyze_score_le_ten
  · refine ⟨[], toChars "Ax9!Bz8@Cw7#Dv6$Eu5%", ?_⟩
    rw [analyze_score _ _ (by decide)]
    unfold finalScore
    have he := entropy_94_ge (toChars "Ax9!Bz8@Cw7#Dv6$Eu5%") (by decide) (by decide)
    rw [if_neg he.2, if_pos he.1]
    have hso : scoreAfterOverrides [] (toChars "Ax9!Bz8@Cw7#Dv6$Eu5%") = 8 := by decide
    rw [hso]

/-- Claim C3 counterexample: when the common-credential file exists but
reading it raises, the loader returns the EMPTY set (the default entries,
"password" included, are absent) and logs at error, not warning, level. -/
theorem load_fallback_cex :
    toChars "password" ∉ (loadCommonPasswords LoadSource.unreadable).passwords ∧
    (loadCommonPasswords LoadSource.unreadable).logged ≠ some LogLevel.warning := by
  decide

/-- Claim C3 (amended): when the common-credential file is absent, the loader
falls back to the built-in default set containing "password", "123456",
"qwerty", "admin123" and "letmein" and reports only a warning; when the file
exists but reading it raises, the loader instead returns the empty set and
reports an error; in neither case is the failure raised to the caller. -/
theorem load_fallback :
    loadCommonPasswords LoadSource.absent =
      { passwords := defaultCommonPasswords, logged := some LogLevel.warning } ∧
    toChars "password" ∈ (loadCommonPasswords LoadSource.absent).passwords ∧
    toChars "123456" ∈ (loadCommonPasswords LoadSource.absent).passwords ∧
    toChars "qwerty" ∈ (loadCommonPasswords LoadSource.absent).passwords ∧
    toChars "admin123" ∈ (loadCommonPasswords LoadSource.absent).passwords ∧
    toChars "letmein" ∈ (loadCommonPasswords LoadSource.absent).passwords ∧
    loadCommonPasswords LoadSource.unreadable =
      { passwords := [], logged := some LogLevel.error } := by
  decide

/-- Claim C7: entropy equals `length * log2(alphabetSize)` rounded to two
decimal places, where the alphabet size sums 26/26/10/32 over the character
classes present (0.0 when none is present); it is always nonnegative, and
"abcdefgh" yields 37.60 bits. -/
theorem entropy_formula :
    (∀ p : List Char, calculate_entropy p =
      if charsetSize p = 0 then 0
      else round2 ((p.length : ℝ) * Real.logb 2 (charsetSize p))) ∧
    (∀ p : List Char, 0 ≤ calculate_entropy p) ∧
    calculate_entropy (toChars "abcdefgh") = 37.6 := by
  refine ⟨fun p => rfl, fun p => ?_, ?_⟩
  · unfold calculate_entropy
    split_ifs with h
    · exact le_refl 0
    · apply round2_nonneg
      have h1 : 1 ≤ charsetSize p := Nat.one_le_iff_ne_zero.mpr h
      have hcs : (1:ℝ) ≤ (charsetSize p : ℝ) := by exact_mod_cast h1
      have hlogb : 0 ≤ Real.logb 2 (charsetSize p) :=
        Real.logb_nonneg (by norm_num) hcs
      exact mul_nonneg (by positivity) hlogb
  · have h26 : charsetSize (toChars "abcdefgh") = 26 := by decide
    have hlen : (toChars "abcdefgh").length = 8 := by decide
    unfold calculate_entropy
    rw [if_neg (by rw [h26]; norm_num), h26, hlen]
    have hlb := logb2_26_lb
    have hub := logb2_26_ub
    have heq := round2_eq 3760 ((8:ℝ) * Real.logb 2 26) (by push_cast; linarith)
      (by push_cast; linarith)
    push_cast
    rw [heq]
    norm_num
